import Mathlib

/-!
Shallow embedding of `cmd/logger.go` from the minio repository: the
structured error/fatal logging facility (severity levels, quiet/JSON
logger modes, error-suppression classification, stack-trace trimming and
formatting, and the dual JSON/text rendering of log records).

External collaborators that live outside this file's source (the process
clock, the real call stack, the console color primitives, the error
wrapping package and the `fmt` format interpolator) are passed in as
explicit parameters or modelled from the specification, as noted on each
definition.
-/

namespace MinioLogger

/-! ## Severity levels (`Level`, `Level.String` in the source) -/

/-- `Level` from the source: the closed severity enumeration `{Error, Fatal}`. -/
inductive Level where
  | Error
  | Fatal
deriving DecidableEq, Repr

/-- `Level.String` from the source: `Error ↦ "ERROR"`, `Fatal ↦ "FATAL"`. -/
def levelString (level : Level) : String :=
  match level with
  | .Error => "ERROR"
  | .Fatal => "FATAL"

/-! ## Domain errors and the error-wrapping collaborator -/

/-- The concrete domain error variants the classifier's type switch names,
plus a `Generic` constructor for every other error type. -/
inductive ErrKind where
  | BucketNotFound
  | BucketNotEmpty
  | BucketExists
  | ObjectNotFound
  | ObjectExistsAsDirectory
  | BucketPolicyNotFound
  | InvalidUploadID
  | Generic (tag : String)
deriving DecidableEq, Repr

/-- A Go error value: either a base domain error carrying its message
text, or a wrapping layer added by the error-wrapping collaborator. -/
inductive GoError where
  | base (kind : ErrKind) (msg : String)
  | wrap (inner : GoError)
deriving DecidableEq, Repr

/-- Modelled from the spec: the error-handling collaborator's
`errors.Cause` operation (package `pkg/errors` of the repository, outside
this source file) — "unwrap until no further cause", returning the
root-cause error. -/
def errorsCause : GoError → GoError
  | .base k m => .base k m
  | .wrap e => errorsCause e

/-- Modelled from the spec: the `Error()` message text of an error value.
The wrapping collaborator's wrapper delegates its message to the wrapped
error, so a wrapped error's text is its root cause's text (the spec's
glossary defines the emitted cause as "the root-cause error's message
text ... after unwrapping any wrapping layers"). -/
def GoError.errString : GoError → String
  | .base _ m => m
  | .wrap e => e.errString

/-- The `isErrIgnored` closure inside `logIf`: unwrap to the root cause
and test its variant against the fixed allow-list
(BucketNotFound, BucketNotEmpty, BucketExists, ObjectNotFound,
ObjectExistsAsDirectory, BucketPolicyNotFound, InvalidUploadID). -/
def isErrIgnored (err : GoError) : Bool :=
  match errorsCause err with
  | .base k _ =>
    match k with
    | .BucketNotFound => true
    | .BucketNotEmpty => true
    | .BucketExists => true
    | .ObjectNotFound => true
    | .ObjectExistsAsDirectory => true
    | .BucketPolicyNotFound => true
    | .InvalidUploadID => true
    | .Generic _ => false
  | .wrap _ => false

/-! ## Logger state (`Logger`, `NewLogger`, `EnableQuiet`, `EnableJSON`) -/

/-- `Logger` from the source: the two mode flags. -/
structure Logger where
  quiet : Bool
  json : Bool
deriving DecidableEq, Repr

/-- `NewLogger` from the source: zero-valued flags, `quiet=false, json=false`. -/
def NewLogger : Logger := ⟨false, false⟩

/-- `EnableQuiet` from the source: turns the quiet option on. -/
def Logger.EnableQuiet (log : Logger) : Logger := { log with quiet := true }

/-- `EnableJSON` from the source: sets `json := true` and also `quiet := true`. -/
def Logger.EnableJSON (log : Logger) : Logger := { log with json := true, quiet := true }

/-- A configuration operation applied to the logger singleton. -/
inductive LoggerOp where
  | enableQuiet
  | enableJSON
deriving DecidableEq, Repr

/-- Apply one configuration operation. -/
def applyOp (log : Logger) : LoggerOp → Logger
  | .enableQuiet => log.EnableQuiet
  | .enableJSON => log.EnableJSON

/-- Apply a sequence of configuration operations, left to right. -/
def applyOps (log : Logger) (ops : List LoggerOp) : Logger :=
  ops.foldl applyOp log

/-! ## The `fmt` format interpolator (collaborator) -/

/-- A Go value passed as a variadic formatting argument. -/
inductive GoValue where
  | str (s : String)
  | int (n : Int)
deriving DecidableEq, Repr

/-- Default rendering of a formatting argument. -/
def GoValue.render : GoValue → String
  | .str s => s
  | .int n => toString n

/-- Concatenate a list of strings. -/
def concatAll : List String → String
  | [] => ""
  | x :: xs => x ++ concatAll xs

/-- `strings.Join`: elements joined by a separator. -/
def joinSep (sep : String) : List String → String
  | [] => ""
  | [x] => x
  | x :: y :: xs => x ++ sep ++ joinSep sep (y :: xs)

/-- `strings.HasPrefix(s, pre)`: byte-level prefix test, which on whole
character sequences is the character-sequence prefix test. -/
def strHasPrefix (s pre : String) : Bool :=
  pre.data.isPrefixOf s.data

/-- Modelled from the spec: the `fmt.Sprintf` interpolation collaborator
(Go's `fmt` package), restricted to the `%s`, `%v`, `%d` and `%%` verbs
the logger's messages use; the record's message is "the format string
interpolated with the arguments". -/
def sprintfAux : List Char → List GoValue → String
  | [], [] => ""
  | [], v :: vs =>
    "%!(EXTRA " ++ joinSep ", " ((v :: vs).map GoValue.render) ++ ")"
  | ['%'], _ => "%!(NOVERB)"
  | '%' :: c :: cs, vs =>
    if c = '%' then "%" ++ sprintfAux cs vs
    else if c = 's' || c = 'v' || c = 'd' then
      match vs with
      | v :: rest => v.render ++ sprintfAux cs rest
      | [] => "%!" ++ String.singleton c ++ "(MISSING)" ++ sprintfAux cs []
    else "%!" ++ String.singleton c ++ "(BADVERB)" ++ sprintfAux cs vs
  | c :: cs, vs => String.singleton c ++ sprintfAux cs vs

/-- `fmt.Sprintf(format, args...)` on the supported verb subset. -/
def sprintf (format : String) (args : List GoValue) : String :=
  sprintfAux format.data args

/-! ## `strings.Title` (Go standard library, ASCII fragment) -/

/-- Go's `unicode.IsSpace`-style separator test used by `strings.Title`
on the ASCII range: letters, digits and underscore do not separate
words; every other character does. -/
def goIsSeparator (c : Char) : Bool :=
  !(c.isAlpha || c.isDigit || c = '_')

/-- Character-by-character worker for `strings.Title`, carrying the
previous character. -/
def titleAux : Char → List Char → List Char
  | _, [] => []
  | prev, c :: cs =>
    (if goIsSeparator prev then c.toUpper else c) :: titleAux c cs

/-- `strings.Title` (ASCII fragment): uppercase each letter that begins a
word; the scan starts as if preceded by a space. -/
def stringsTitle (s : String) : String :=
  String.mk (titleAux ' ' s.data)

/-! ## Path trimming (`trimTrace`) -/

/-- `strings.TrimPrefix`: drop `pre` from the front of `s` when it is a
prefix, otherwise return `s` unchanged. -/
def stringsTrimPrefix (s pre : String) : String :=
  if strHasPrefix s pre then String.mk (s.data.drop pre.data.length) else s

/-- `filepath.ToSlash`: on non-Windows builds (the build this `init`
configures, where `filepath.Separator` is already `'/'`) this is the
identity on paths. -/
def filepathToSlash (s : String) : String := s

/-- `filepath.FromSlash`: identity on non-Windows builds, as above. -/
def filepathFromSlash (s : String) : String := s

/-- `trimTrace` from the source, with the process-global `trimStrings`
list (computed once by `init` from the environment) passed explicitly:
fold over the configured prefixes in order, trimming each one that
matches the current value. -/
def trimTrace (trimStrings : List String) (f : String) : String :=
  filepathFromSlash
    (trimStrings.foldl
      (fun acc trimString =>
        stringsTrimPrefix (filepathToSlash acc) (filepathToSlash trimString))
      f)

/-- The specification's wording for prefix stripping, for comparison
with `trimTrace`: strip only the first configured prefix that matches
(at most one prefix removed per call); if none matches, pass the path
through unchanged. -/
def stripFirstMatchingOnly (trimStrings : List String) (f : String) : String :=
  match trimStrings.find? (fun t => strHasPrefix (filepathToSlash f) (filepathToSlash t)) with
  | some t => filepathFromSlash (stringsTrimPrefix (filepathToSlash f) (filepathToSlash t))
  | none => f

/-! ## Stack frames and `getTrace` -/

/-- One raw frame as returned by the `runtime.Caller` collaborator:
source file, line number, and the fully qualified function name that
`runtime.FuncForPC(pc).Name()` yields. -/
structure Frame where
  file : String
  line : Nat
  fullFunc : String
deriving DecidableEq, Repr

/-- The file component of `filepath.Split`: everything after the final
separator. -/
def filepathSplitFile (p : String) : String :=
  String.mk ((p.data.reverse.takeWhile (fun c => c != '/')).reverse)

/-- `getTrace` from the source, with the call stack passed explicitly as
the list of frames indexed by `runtime.Caller` level: walk the stack from
`traceLevel` outward, trim each file path, shorten each function name,
and keep every frame that is neither compiler-synthesized
(`<autogenerated>`) nor runtime-internal (`runtime.` function prefix),
formatted `file:line:func()`. -/
def getTrace (trimStrings : List String) (stack : List Frame) (traceLevel : Nat) :
    List String :=
  (stack.drop traceLevel).filterMap fun fr =>
    let file := trimTrace trimStrings fr.file
    let funcName := filepathSplitFile fr.fullFunc
    if !(strHasPrefix file "<autogenerated>") && !(strHasPrefix funcName "runtime.") then
      some (file ++ ":" ++ toString fr.line ++ ":" ++ funcName ++ "()")
    else
      none

/-! ## JSON rendering (`encoding/json` for `logEntry`) -/

/-- `logEntry` from the source: the five-field record serialized in JSON
mode, with its json tag names `level`, `message`, `time`, `cause`,
`trace` in declaration order. -/
structure logEntry where
  Level : String
  Message : String
  Time : String
  Cause : String
  Trace : List String
deriving DecidableEq, Repr

/-- Lower-case hex digit for a value below 16. -/
def hexDigitChar (n : Nat) : Char :=
  if n < 10 then Char.ofNat (48 + n) else Char.ofNat (97 + (n - 10))

/-- Two lower-case hex digits of a byte value. -/
def hexByte (n : Nat) : String :=
  String.mk [hexDigitChar (n / 16 % 16), hexDigitChar (n % 16)]

/-- `encoding/json` string escaping: quote, backslash, the common control
escapes, `\u00xx` for other control characters, and the HTML-safe
escapes for `<`, `>`, `&` that `json.Marshal` applies by default. -/
def jsonEscapeChar (c : Char) : String :=
  if c = '"' then "\\\""
  else if c = '\\' then "\\\\"
  else if c = '\n' then "\\n"
  else if c = '\r' then "\\r"
  else if c = '\t' then "\\t"
  else if c = '<' || c = '>' || c = '&' then "\\u00" ++ hexByte c.toNat
  else if c.toNat < 32 then "\\u00" ++ hexByte c.toNat
  else String.singleton c

/-- A JSON string literal: escaped content between double quotes. -/
def jsonQuote (s : String) : String :=
  "\"" ++ concatAll (s.data.map jsonEscapeChar) ++ "\""

/-- A JSON value as `json.Marshal` produces for `logEntry`'s field types:
a string, an array of strings, or `null` (a nil slice). -/
inductive Jatom where
  | str (s : String)
  | arrStr (elems : List String)
  | null
deriving DecidableEq, Repr

/-- Render one JSON value. -/
def Jatom.render : Jatom → String
  | .str s => jsonQuote s
  | .arrStr xs => "[" ++ joinSep "," (xs.map jsonQuote) ++ "]"
  | .null => "null"

/-- Render a JSON object with the given fields in order, compactly and
on one line, exactly as `json.Marshal` lays out a struct. -/
def renderObj (fields : List (String × Jatom)) : String :=
  "\x7b" ++ joinSep "," (fields.map fun kv => jsonQuote kv.1 ++ ":" ++ kv.2.render)
    ++ "\x7d"

/-- `json.Marshal` of a `logEntry` value: the five fields in struct
order; a nil `trace` slice (no frame was ever appended) marshals as
`null`, a non-empty one as an array of strings. -/
def marshalLogEntry (e : logEntry) : String :=
  renderObj
    [("level", Jatom.str e.Level),
     ("message", Jatom.str e.Message),
     ("time", Jatom.str e.Time),
     ("cause", Jatom.str e.Cause),
     ("trace", if e.Trace.isEmpty then Jatom.null else Jatom.arrStr e.Trace)]

/-! ## Text rendering helpers -/

/-- `%8v`-style formatting of a number: right-justified with spaces to a
minimum field width. -/
def goPadInt (width : Nat) (n : Nat) : String :=
  let s := toString n
  if s.length < width then String.mk (List.replicate (width - s.length) ' ') ++ s else s

/-- The in-place numbering loop over `trace[1:]`: entry `i` of the tail
(0-based) becomes `fmt.Sprintf("%8v: %s", i+2, element)`; here the
counter starts at 2 and increments. -/
def numberFrom : Nat → List String → List String
  | _, [] => []
  | n, x :: xs => (goPadInt 8 n ++ ": " ++ x) :: numberFrom (n + 1) xs

/-- Modelled from the spec: the console collaborator's bold styling
(ANSI escape around the text). -/
def colorBold (s : String) : String := "\x1b[1m" ++ s ++ "\x1b[0m"

/-- Modelled from the spec: the console collaborator's attention-color
(red) styling (ANSI escape around the text). -/
def colorRed (s : String) : String := "\x1b[31m" ++ s ++ "\x1b[0m"

/-! ## The log entry point (`logIf`) and the passthrough prints -/

/-- The observable outcome of one `logIf` call: the line handed to
`fmt.Println` (`none` when the call is suppressed), and the process exit
status when `os.Exit` is reached (`some 1` on Fatal emission). -/
structure LogOutcome where
  output : Option String
  exitCode : Option Nat
deriving DecidableEq, Repr

/-- The result of one `logIf` call: either a Go panic (with its message)
or a normal return with the observable outcome. -/
inductive LogResult where
  | panicked (msg : String)
  | ok (out : LogOutcome)
deriving DecidableEq, Repr

/-- `logIf` from the source, with the collaborators passed explicitly:
the logger singleton's flags, the configured `trimStrings`, the call
stack, and the formatted current time (`UTCNow().Format(RFC3339Nano)`).
Returns `.error` for a Go panic (the text-mode `trace[0]` indexing of an
empty trace), else the emitted output and exit status. -/
def logIf (log : Logger) (trimStrings : List String) (stack : List Frame)
    (now : String) (level : Level) (err : Option GoError) (msg : String)
    (data : List GoValue) : LogResult :=
  match err with
  | none => .ok ⟨none, none⟩
  | some e =>
    if isErrIgnored e then .ok ⟨none, none⟩
    else
      let cause := stringsTitle e.errString
      let trace := getTrace trimStrings stack 3
      let message := sprintf msg data
      let exitCode : Option Nat := if level = Level.Fatal then some 1 else none
      if log.json then
        .ok ⟨some (marshalLogEntry ⟨levelString level, message, now, cause, trace⟩),
             exitCode⟩
      else
        match trace with
        | [] => .panicked "index out of range"
        | t0 :: rest =>
          let trace2 := ("1: " ++ t0) :: numberFrom 2 rest
          let errMsg := "[" ++ now ++ "] [" ++ levelString level ++ "] " ++ message
            ++ " (" ++ cause ++ ")"
          .ok ⟨some ("\nTrace: " ++ joinSep "\n" trace2 ++ "\n"
                      ++ colorRed (colorBold errMsg)),
               exitCode⟩

/-- `errorIf` from the source: `logIf` fixed at Error severity. -/
def errorIf (log : Logger) (trimStrings : List String) (stack : List Frame)
    (now : String) (err : Option GoError) (msg : String) (data : List GoValue) :
    LogResult :=
  logIf log trimStrings stack now Level.Error err msg data

/-- `fatalIf` from the source: `logIf` fixed at Fatal severity. -/
def fatalIf (log : Logger) (trimStrings : List String) (stack : List Frame)
    (now : String) (err : Option GoError) (msg : String) (data : List GoValue) :
    LogResult :=
  logIf log trimStrings stack now Level.Fatal err msg data

/-- `Logger.Println` from the source: hand the rendered arguments to the
console collaborator unless quiet mode is on; the result is the console
output produced, `none` when suppressed. -/
def Logger.Println (log : Logger) (rendered : String) : Option String :=
  if !log.quiet then some rendered else none

/-- `Logger.Printf` from the source: format through the `fmt`
collaborator and print unless quiet mode is on. -/
def Logger.Printf (log : Logger) (format : String) (args : List GoValue) :
    Option String :=
  if !log.quiet then some (sprintf format args) else none

/-! ## Concrete fixtures used by witnesses and counterexamples -/

/-- A `trimStrings` list as `init` builds it with `GOROOT=/go` and
`GOPATH=/home/u/go`: `{GOROOT}/src/`, `{GOPATH}/src/`, and the
`github.com/minio/minio/` self path last. -/
def sampleTrims : List String :=
  ["/go/src/", "/home/u/go/src/", "github.com/minio/minio/"]

/-- A sample call stack indexed by `runtime.Caller` level: `getTrace`
itself, `logIf`, `errorIf`, then the application frames, with the
runtime's own frame outermost. -/
def sampleStack : List Frame :=
  [⟨"/go/src/github.com/minio/minio/cmd/logger.go", 134, "github.com/minio/minio/cmd.getTrace"⟩,
   ⟨"/go/src/github.com/minio/minio/cmd/logger.go", 177, "github.com/minio/minio/cmd.logIf"⟩,
   ⟨"/go/src/github.com/minio/minio/cmd/logger.go", 217, "github.com/minio/minio/cmd.errorIf"⟩,
   ⟨"/go/src/github.com/minio/minio/cmd/server-main.go", 410, "github.com/minio/minio/cmd.serverMain"⟩,
   ⟨"/go/src/github.com/minio/minio/cmd/main.go", 67, "github.com/minio/minio/cmd.Main"⟩,
   ⟨"/go/src/runtime/proc.go", 185, "runtime.main"⟩]

/-- A non-ignorable error wrapped once. -/
def sampleErr : GoError := .wrap (.base (.Generic "diskError") "disk full")

/-- An ignorable error (root cause BucketNotFound) wrapped once. -/
def sampleIgnorable : GoError := .wrap (.base .BucketNotFound "bucket not found")

/-! ## Helper lemmas -/

set_option maxRecDepth 20000

/-- The message text of an error is the message text of its root cause:
each wrapping layer delegates. -/
theorem errString_errorsCause (e : GoError) :
    (errorsCause e).errString = e.errString := by
  induction e with
  | base k m => rfl
  | wrap inner ih => simpa [errorsCause, GoError.errString] using ih

/-- `trimTrace` on a path none of whose configured prefixes match leaves
the path unchanged. -/
theorem trimTrace_no_match (trims : List String) (p : String)
    (h : ∀ t ∈ trims, strHasPrefix p t = false) :
    trimTrace trims p = p := by
  induction trims with
  | nil => rfl
  | cons t ts ih =>
    have ht : strHasPrefix p t = false := h t (List.mem_cons_self t ts)
    have step : stringsTrimPrefix p t = p := by
      simp [stringsTrimPrefix, ht]
    calc trimTrace (t :: ts) p
        = trimTrace ts (stringsTrimPrefix p t) := rfl
      _ = trimTrace ts p := by rw [step]
      _ = p := ih (fun t2 h2 => h t2 (List.mem_cons_of_mem t h2))

/-- Peeling one configured prefix off the front of the trim list. -/
theorem trimTrace_cons (t : String) (ts : List String) (p : String) :
    trimTrace (t :: ts) p = trimTrace ts (stringsTrimPrefix p t) := rfl

/-- One configuration step never clears the json flag. -/
theorem applyOp_json_mono (l : Logger) (op : LoggerOp) (h : l.json = true) :
    (applyOp l op).json = true := by
  cases op <;> simp [applyOp, Logger.EnableQuiet, Logger.EnableJSON, h]

/-- One configuration step never clears the quiet flag (indeed every
operation sets it). -/
theorem applyOp_quiet_mono (l : Logger) (op : LoggerOp) (_h : l.quiet = true) :
    (applyOp l op).quiet = true := by
  cases op <;> simp [applyOp, Logger.EnableQuiet, Logger.EnableJSON]

/-- Sequences of configuration steps never clear the json flag. -/
theorem applyOps_json_mono (ops : List LoggerOp) :
    ∀ l : Logger, l.json = true → (applyOps l ops).json = true := by
  induction ops with
  | nil => intro l h; exact h
  | cons op ops ih =>
    intro l h
    exact ih (applyOp l op) (applyOp_json_mono l op h)

/-- Sequences of configuration steps never clear the quiet flag. -/
theorem applyOps_quiet_mono (ops : List LoggerOp) :
    ∀ l : Logger, l.quiet = true → (applyOps l ops).quiet = true := by
  induction ops with
  | nil => intro l h; exact h
  | cons op ops ih =>
    intro l h
    exact ih (applyOp l op) (applyOp_quiet_mono l op h)

/-- The json-implies-quiet invariant is preserved by every configuration
step. -/
theorem applyOps_inv (ops : List LoggerOp) :
    ∀ l : Logger, (l.json = true → l.quiet = true) →
      ((applyOps l ops).json = true → (applyOps l ops).quiet = true) := by
  induction ops with
  | nil => intro l h; exact h
  | cons op ops ih =>
    intro l h
    refine ih (applyOp l op) ?_
    cases op with
    | enableQuiet => intro _; simp [applyOp, Logger.EnableQuiet]
    | enableJSON => intro _; simp [applyOp, Logger.EnableJSON]

/-! ## C3: prefix stripping strips every matching prefix in order -/

/-- C3 counterexample: with the configured prefixes
`["/go/src/", "github.com/minio/minio/"]` and the path
`/go/src/github.com/minio/minio/cmd/logger.go`, `trimTrace` removes BOTH
matching prefixes in one call (yielding `cmd/logger.go`), not just the
first matching prefix as the claim states (which would yield
`github.com/minio/minio/cmd/logger.go`). -/
theorem trimTrace_c3_counterexample :
    trimTrace ["/go/src/", "github.com/minio/minio/"]
        "/go/src/github.com/minio/minio/cmd/logger.go" = "cmd/logger.go"
    ∧ stripFirstMatchingOnly ["/go/src/", "github.com/minio/minio/"]
        "/go/src/github.com/minio/minio/cmd/logger.go"
        = "github.com/minio/minio/cmd/logger.go"
    ∧ trimTrace ["/go/src/", "github.com/minio/minio/"]
        "/go/src/github.com/minio/minio/cmd/logger.go"
        ≠ stripFirstMatchingOnly ["/go/src/", "github.com/minio/minio/"]
        "/go/src/github.com/minio/minio/cmd/logger.go" :=
  ⟨by decide, by decide, by decide⟩

/-- C3 (amended): path normalization tries every configured prefix in
list order, each against the value left by the previous strips, so
several prefixes can be removed in one call; if no configured prefix
matches, the path passes through unchanged. -/
theorem trimTrace_c3_amended (trims : List String) (p : String) :
    (∀ t, trimTrace (t :: trims) p = trimTrace trims (stringsTrimPrefix p t))
    ∧ ((∀ t ∈ trims, strHasPrefix p t = false) → trimTrace trims p = p) :=
  ⟨fun t => trimTrace_cons t trims p, trimTrace_no_match trims p⟩

/-- C3 witness: the pass-through half at a concrete unmatched path. -/
theorem trimTrace_c3_witness :
    trimTrace ["/go/src/", "/home/u/go/src/", "github.com/minio/minio/"] "main.go"
      = "main.go" :=
  (trimTrace_c3_amended ["/go/src/", "/home/u/go/src/", "github.com/minio/minio/"]
    "main.go").2 (by decide)

/-! ## C4: normalization is not idempotent in general -/

/-- C4 counterexample: with the `init`-shaped prefix list
`sampleTrims = ["/go/src/", "/home/u/go/src/", "github.com/minio/minio/"]`,
normalizing `github.com/minio/minio//go/src/x.go` once yields
`/go/src/x.go` (the self-path prefix is stripped, exposing the toolchain
prefix), and normalizing a second time strips further to `x.go`, so
`normalize (normalize p) ≠ normalize p`. -/
theorem trimTrace_c4_counterexample :
    trimTrace sampleTrims "github.com/minio/minio//go/src/x.go" = "/go/src/x.go"
    ∧ trimTrace sampleTrims (trimTrace sampleTrims "github.com/minio/minio//go/src/x.go")
        = "x.go"
    ∧ trimTrace sampleTrims (trimTrace sampleTrims "github.com/minio/minio//go/src/x.go")
        ≠ trimTrace sampleTrims "github.com/minio/minio//go/src/x.go" :=
  ⟨by decide, by decide, by decide⟩

/-- C4 (amended): path normalization is idempotent exactly on those
paths whose normalized form is not itself further trimmable — whenever
no configured prefix matches the output of the first application,
`normalize (normalize p) = normalize p`; in general a strip can expose
an earlier configured prefix and a second application strips again. -/
theorem trimTrace_c4_amended (trims : List String) (p : String)
    (h : ∀ t ∈ trims, strHasPrefix (trimTrace trims p) t = false) :
    trimTrace trims (trimTrace trims p) = trimTrace trims p :=
  trimTrace_no_match trims (trimTrace trims p) h

/-- C4 witness: idempotence at a concrete fully-trimmed path. -/
theorem trimTrace_c4_witness :
    trimTrace sampleTrims (trimTrace sampleTrims
        "/go/src/github.com/minio/minio/cmd/logger.go")
      = trimTrace sampleTrims "/go/src/github.com/minio/minio/cmd/logger.go" :=
  trimTrace_c4_amended sampleTrims "/go/src/github.com/minio/minio/cmd/logger.go"
    (by decide)

/-! ## C6: reachable logger configurations -/

/-- C6: starting from `NewLogger` (`quiet=false, json=false`), under any
sequence of EnableQuiet/EnableJSON operations: json implies quiet in
every reachable state; EnableJSON sets quiet as a side effect; both
toggles are idempotent; and no continuation of the sequence ever resets
json or quiet back to false. -/
theorem logger_config_invariant (ops : List LoggerOp) :
    ((applyOps NewLogger ops).json = true → (applyOps NewLogger ops).quiet = true)
    ∧ (∀ l : Logger, (Logger.EnableJSON l).quiet = true)
    ∧ (∀ (l : Logger) (op : LoggerOp), applyOp (applyOp l op) op = applyOp l op)
    ∧ (∀ more : List LoggerOp,
        ((applyOps NewLogger ops).json = true →
          (applyOps NewLogger (ops ++ more)).json = true)
        ∧ ((applyOps NewLogger ops).quiet = true →
          (applyOps NewLogger (ops ++ more)).quiet = true)) := by
  refine ⟨applyOps_inv ops NewLogger (by intro h; exact absurd h (by decide)), ?_, ?_, ?_⟩
  · intro l; rfl
  · intro l op; cases op <;> rfl
  · intro more
    constructor
    · intro h
      rw [applyOps, List.foldl_append]
      exact applyOps_json_mono more _ h
    · intro h
      rw [applyOps, List.foldl_append]
      exact applyOps_quiet_mono more _ h

/-- C6 witness: concrete instantiation — after EnableJSON the quiet flag
is set, and it survives a further EnableQuiet. -/
theorem logger_config_invariant_witness :
    (applyOps NewLogger [LoggerOp.enableJSON]).quiet = true
    ∧ (applyOps NewLogger ([LoggerOp.enableJSON] ++ [LoggerOp.enableQuiet])).json = true :=
  ⟨(logger_config_invariant [LoggerOp.enableJSON]).1 (by decide),
   ((logger_config_invariant [LoggerOp.enableJSON]).2.2.2 [LoggerOp.enableQuiet]).1
     (by decide)⟩

/-! ## Evaluation lemmas for `logIf` -/

/-- `logIf` on a non-ignorable error in JSON mode: one marshalled
record, and exit status 1 exactly on Fatal. -/
theorem logIf_json_eq (log : Logger) (trims : List String) (stack : List Frame)
    (now : String) (level : Level) (m : String) (data : List GoValue) (e : GoError)
    (hne : isErrIgnored e = false) (hj : log.json = true) :
    logIf log trims stack now level (some e) m data =
      .ok ⟨some (marshalLogEntry ⟨levelString level, sprintf m data, now,
              stringsTitle e.errString, getTrace trims stack 3⟩),
           if level = Level.Fatal then some 1 else none⟩ := by
  simp [logIf, hne, hj]

/-- `logIf` on a non-ignorable error in text mode with a non-empty
trace: the numbered trace block followed by the styled header, and exit
status 1 exactly on Fatal. -/
theorem logIf_text_eq (log : Logger) (trims : List String) (stack : List Frame)
    (now : String) (level : Level) (m : String) (data : List GoValue) (e : GoError)
    (t0 : String) (rest : List String)
    (hne : isErrIgnored e = false) (hj : log.json = false)
    (htr : getTrace trims stack 3 = t0 :: rest) :
    logIf log trims stack now level (some e) m data =
      .ok ⟨some ("\nTrace: " ++ joinSep "\n" (("1: " ++ t0) :: numberFrom 2 rest)
              ++ "\n" ++ colorRed (colorBold ("[" ++ now ++ "] ["
                ++ levelString level ++ "] " ++ sprintf m data ++ " ("
                ++ stringsTitle e.errString ++ ")"))),
           if level = Level.Fatal then some 1 else none⟩ := by
  simp [logIf, hne, hj, htr]

/-- `logIf` on a non-ignorable error in text mode with an empty trace
panics on the `trace[0]` indexing. -/
theorem logIf_text_empty (log : Logger) (trims : List String) (stack : List Frame)
    (now : String) (level : Level) (m : String) (data : List GoValue) (e : GoError)
    (hne : isErrIgnored e = false) (hj : log.json = false)
    (htr : getTrace trims stack 3 = []) :
    logIf log trims stack now level (some e) m data = .panicked "index out of range" := by
  simp [logIf, hne, hj, htr]

/-- `logIf` suppresses nil errors and ignorable errors with no outcome
at all. -/
theorem logIf_suppressed (log : Logger) (trims : List String) (stack : List Frame)
    (now : String) (level : Level) (m : String) (data : List GoValue)
    (err : Option GoError) (h : err = none ∨ err.any isErrIgnored = true) :
    logIf log trims stack now level err m data = .ok ⟨none, none⟩ := by
  cases err with
  | none => rfl
  | some e =>
    rcases h with h | h
    · exact absurd h (by simp)
    · simp only [Option.any_some] at h
      simp [logIf, h]

/-- On a non-ignorable error with a non-empty trace, `logIf` emits some
record with exit status 1 exactly on Fatal. -/
theorem logIf_emits (log : Logger) (trims : List String) (stack : List Frame)
    (now : String) (level : Level) (m : String) (data : List GoValue) (e : GoError)
    (hne : isErrIgnored e = false) (ht : getTrace trims stack 3 ≠ []) :
    ∃ out, logIf log trims stack now level (some e) m data
      = .ok ⟨some out, if level = Level.Fatal then some 1 else none⟩ := by
  cases hj : log.json with
  | true => exact ⟨_, logIf_json_eq log trims stack now level m data e hne hj⟩
  | false =>
    cases htr : getTrace trims stack 3 with
    | nil => exact absurd htr ht
    | cons t0 rest =>
      exact ⟨_, logIf_text_eq log trims stack now level m data e t0 rest hne hj htr⟩

/-! ## C1: suppression happens exactly for nil and allow-listed errors -/

/-- C1: for every severity, `logIf` produces no output and no exit if
and only if the error is nil or its root cause is one of the fixed
allow-list variants; for every other non-nil error a record is emitted
(given that the captured trace is non-empty, which in the running
program it always is — the stack always contains the call site). -/
theorem logIf_suppression_iff (log : Logger) (trims : List String) (stack : List Frame)
    (now : String) (level : Level) (m : String) (data : List GoValue)
    (err : Option GoError) (ht : getTrace trims stack 3 ≠ []) :
    (logIf log trims stack now level err m data = .ok ⟨none, none⟩
      ↔ err = none ∨ err.any isErrIgnored = true)
    ∧ (∀ e, err = some e → isErrIgnored e = false →
        ∃ out ex, logIf log trims stack now level err m data = .ok ⟨some out, ex⟩) := by
  constructor
  · constructor
    · intro hsup
      by_contra hc
      push_neg at hc
      obtain ⟨hne, hni⟩ := hc
      cases err with
      | none => exact hne rfl
      | some e =>
        simp only [Option.any_some] at hni
        have hig : isErrIgnored e = false := by
          cases hg : isErrIgnored e
          · rfl
          · exact absurd hg hni
        obtain ⟨out, hout⟩ :=
          logIf_emits log trims stack now level m data e hig ht
        rw [hout] at hsup
        simp at hsup
    · exact logIf_suppressed log trims stack now level m data err
  · intro e he hig
    subst he
    obtain ⟨out, hout⟩ := logIf_emits log trims stack now level m data e hig ht
    exact ⟨out, _, hout⟩

/-- C1 witness: at a concrete stack, a nil error and an ignorable error
are suppressed and a generic error is emitted. -/
theorem logIf_suppression_iff_witness :
    logIf NewLogger sampleTrims sampleStack "t" Level.Error (some sampleIgnorable)
        "m" [] = .ok ⟨none, none⟩
    ∧ ∃ out ex, logIf NewLogger sampleTrims sampleStack "t" Level.Error
        (some sampleErr) "m" [] = .ok ⟨some out, ex⟩ :=
  ⟨((logIf_suppression_iff NewLogger sampleTrims sampleStack "t" Level.Error "m" []
      (some sampleIgnorable) (by decide)).1).2 (Or.inr (by decide)),
   (logIf_suppression_iff NewLogger sampleTrims sampleStack "t" Level.Error "m" []
      (some sampleErr) (by decide)).2 sampleErr rfl (by decide)⟩

/-! ## C2: the cause field is the root cause's title-cased text -/

/-- C2: for every non-nil, non-ignorable error logged in JSON mode, the
`cause` field of the emitted record equals the title-cased message text
of the error's root cause after unwrapping all wrapping layers (the
wrapping collaborator delegates message text, so this coincides with the
title-cased text of the wrapped value). -/
theorem logIf_cause_is_root_cause (log : Logger) (trims : List String)
    (stack : List Frame) (now : String) (level : Level) (m : String)
    (data : List GoValue) (e : GoError)
    (hne : isErrIgnored e = false) (hj : log.json = true) :
    ∃ en ex, logIf log trims stack now level (some e) m data
        = .ok ⟨some (marshalLogEntry en), ex⟩
      ∧ en.Cause = stringsTitle ((errorsCause e).errString) := by
  refine ⟨⟨levelString level, sprintf m data, now, stringsTitle e.errString,
      getTrace trims stack 3⟩, _,
    logIf_json_eq log trims stack now level m data e hne hj, ?_⟩
  simp [errString_errorsCause]

/-- C2 witness: concrete wrapped error in JSON mode. -/
theorem logIf_cause_is_root_cause_witness :
    ∃ en ex, logIf ⟨true, true⟩ sampleTrims sampleStack "t" Level.Error
        (some sampleErr) "m" [] = .ok ⟨some (marshalLogEntry en), ex⟩
      ∧ en.Cause = stringsTitle ((errorsCause sampleErr).errString) :=
  logIf_cause_is_root_cause ⟨true, true⟩ sampleTrims sampleStack "t" Level.Error
    "m" [] sampleErr (by decide) rfl

/-! ## C5: Fatal writes one record then exits 1; Error never exits -/

/-- C5: for every non-nil, non-ignorable error, `logIf` at Fatal writes
exactly one rendered record and reaches `os.Exit(1)` after the write; in
JSON mode the record's message field is the format string interpolated
with the arguments; `logIf` at Error never reaches an exit. -/
theorem logIf_fatal_exits (log : Logger) (trims : List String) (stack : List Frame)
    (now : String) (m : String) (data : List GoValue) (e : GoError)
    (hne : isErrIgnored e = false) (ht : getTrace trims stack 3 ≠ []) :
    (∃ out, logIf log trims stack now Level.Fatal (some e) m data
        = .ok ⟨some out, some 1⟩)
    ∧ (∃ out, logIf log trims stack now Level.Error (some e) m data
        = .ok ⟨some out, none⟩)
    ∧ (log.json = true →
        ∃ en, logIf log trims stack now Level.Fatal (some e) m data
            = .ok ⟨some (marshalLogEntry en), some 1⟩
          ∧ en.Message = sprintf m data ∧ en.Level = "FATAL") := by
  refine ⟨?_, ?_, ?_⟩
  · obtain ⟨out, hout⟩ :=
      logIf_emits log trims stack now Level.Fatal m data e hne ht
    exact ⟨out, by simpa using hout⟩
  · obtain ⟨out, hout⟩ :=
      logIf_emits log trims stack now Level.Error m data e hne ht
    exact ⟨out, by simpa using hout⟩
  · intro hj
    refine ⟨⟨levelString Level.Fatal, sprintf m data, now, stringsTitle e.errString,
        getTrace trims stack 3⟩, ?_, rfl, rfl⟩
    simpa using logIf_json_eq log trims stack now Level.Fatal m data e hne hj

/-- C5 witness: the Fatal scenario `log(Fatal, err, "failed: %s", "disk
full")` at a concrete stack in JSON mode. -/
theorem logIf_fatal_exits_witness :
    ∃ en, logIf ⟨true, true⟩ sampleTrims sampleStack "t" Level.Fatal (some sampleErr)
        "failed: %s" [GoValue.str "disk full"] = .ok ⟨some (marshalLogEntry en), some 1⟩
      ∧ en.Message = sprintf "failed: %s" [GoValue.str "disk full"]
      ∧ en.Level = "FATAL" :=
  (logIf_fatal_exits ⟨true, true⟩ sampleTrims sampleStack "t" "failed: %s"
    [GoValue.str "disk full"] sampleErr (by decide) (by decide)).2.2 rfl

/-! ## C7: quiet suppresses prints only, never the log path -/

/-- C7: when quiet is set, `Println` and `Printf` produce no output at
all; `logIf` reads only the json flag, so its behaviour is identical for
both values of quiet, and on every non-nil, non-ignorable error it emits
its record regardless of quiet. -/
theorem quiet_suppresses_prints_only :
    (∀ (log : Logger) (s : String), log.quiet = true → log.Println s = none)
    ∧ (∀ (log : Logger) (f : String) (args : List GoValue),
        log.quiet = true → log.Printf f args = none)
    ∧ (∀ (q1 q2 j : Bool) (trims : List String) (stack : List Frame) (now : String)
        (level : Level) (err : Option GoError) (m : String) (data : List GoValue),
        logIf ⟨q1, j⟩ trims stack now level err m data
          = logIf ⟨q2, j⟩ trims stack now level err m data)
    ∧ (∀ (log : Logger) (trims : List String) (stack : List Frame) (now : String)
        (level : Level) (m : String) (data : List GoValue) (e : GoError),
        isErrIgnored e = false → getTrace trims stack 3 ≠ [] →
        ∃ out ex, logIf log trims stack now level (some e) m data
          = .ok ⟨some out, ex⟩) := by
  refine ⟨?_, ?_, ?_, ?_⟩
  · intro log s h; simp [Logger.Println, h]
  · intro log f args h; simp [Logger.Printf, h]
  · intro q1 q2 j trims stack now level err m data; rfl
  · intro log trims stack now level m data e hne ht
    obtain ⟨out, hout⟩ := logIf_emits log trims stack now level m data e hne ht
    exact ⟨out, _, hout⟩

/-- C7 witness: a quiet logger prints nothing but still logs a
non-ignorable error. -/
theorem quiet_suppresses_prints_only_witness :
    Logger.Println ⟨true, false⟩ "hello" = none
    ∧ ∃ out ex, logIf ⟨true, false⟩ sampleTrims sampleStack "t" Level.Error
        (some sampleErr) "m" [] = .ok ⟨some out, ex⟩ :=
  ⟨quiet_suppresses_prints_only.1 ⟨true, false⟩ "hello" rfl,
   quiet_suppresses_prints_only.2.2.2 ⟨true, false⟩ sampleTrims sampleStack "t"
     Level.Error "m" [] sampleErr (by decide) (by decide)⟩

/-! ## C10: emitted records have non-empty traces; empty trace panics -/

/-- C10: in text mode on a non-ignorable error, whenever trace capture
returns at least one frame the `trace[0]` indexing is in-bounds and a
record is rendered; an empty trace instead makes the emission an
out-of-bounds access (a panic), not a rendered record. -/
theorem logIf_empty_trace_panics (log : Logger) (trims : List String)
    (stack : List Frame) (now : String) (level : Level) (m : String)
    (data : List GoValue) (e : GoError)
    (hne : isErrIgnored e = false) (hj : log.json = false) :
    (getTrace trims stack 3 ≠ [] →
      ∃ out ex, logIf log trims stack now level (some e) m data = .ok ⟨some out, ex⟩)
    ∧ (getTrace trims stack 3 = [] →
      logIf log trims stack now level (some e) m data
        = .panicked "index out of range") := by
  constructor
  · intro ht
    obtain ⟨out, hout⟩ := logIf_emits log trims stack now level m data e hne ht
    exact ⟨out, _, hout⟩
  · intro htr
    exact logIf_text_empty log trims stack now level m data e hne hj htr

/-- C10 witness: concrete non-empty stack renders; the empty stack
panics. -/
theorem logIf_empty_trace_panics_witness :
    (∃ out ex, logIf NewLogger sampleTrims sampleStack "t" Level.Error
        (some sampleErr) "m" [] = .ok ⟨some out, ex⟩)
    ∧ logIf NewLogger sampleTrims [] "t" Level.Error (some sampleErr) "m" []
        = .panicked "index out of range" :=
  ⟨(logIf_empty_trace_panics NewLogger sampleTrims sampleStack "t" Level.Error "m" []
      sampleErr (by decide) rfl).1 (by decide),
   (logIf_empty_trace_panics NewLogger sampleTrims [] "t" Level.Error "m" []
      sampleErr (by decide) rfl).2 rfl⟩

/-! ## Newline-freedom of the JSON encoding -/

/-- Hex digits are never a newline. -/
theorem hexDigitChar_ne_newline (n : Nat) (h : n < 16) : hexDigitChar n ≠ '\n' := by
  interval_cases n <;> decide

/-- A hex byte rendering contains no newline. -/
theorem hexByte_no_newline (n : Nat) : '\n' ∉ (hexByte n).data := by
  have h1 := hexDigitChar_ne_newline (n / 16 % 16) (Nat.mod_lt _ (by norm_num))
  have h2 := hexDigitChar_ne_newline (n % 16) (Nat.mod_lt _ (by norm_num))
  intro hmem
  rcases List.mem_cons.mp hmem with he | hmem
  · exact h1 he.symm
  · rcases List.mem_cons.mp hmem with he | hmem
    · exact h2 he.symm
    · simp at hmem

/-- Escaping any character produces no newline: the newline character
itself is rewritten to the two-character escape `\n`. -/
theorem jsonEscapeChar_no_newline (c : Char) : '\n' ∉ (jsonEscapeChar c).data := by
  unfold jsonEscapeChar
  split_ifs with h1 h2 h3 h4 h5 h6 h7
  · decide
  · decide
  · decide
  · decide
  · decide
  · intro hmem
    rw [String.data_append] at hmem
    rcases List.mem_append.mp hmem with hm | hm
    · revert hm; decide
    · exact hexByte_no_newline _ hm
  · intro hmem
    rw [String.data_append] at hmem
    rcases List.mem_append.mp hmem with hm | hm
    · revert hm; decide
    · exact hexByte_no_newline _ hm
  · intro hmem
    rcases List.mem_cons.mp hmem with he | hmem
    · exact h3 he.symm
    · simp at hmem

/-- Concatenation of newline-free strings is newline-free. -/
theorem concatAll_no_newline (l : List String) (h : ∀ x ∈ l, '\n' ∉ x.data) :
    '\n' ∉ (concatAll l).data := by
  induction l with
  | nil => simp [concatAll]
  | cons x xs ih =>
    intro hmem
    rw [concatAll, String.data_append] at hmem
    rcases List.mem_append.mp hmem with hm | hm
    · exact h x (List.mem_cons_self x xs) hm
    · exact ih (fun y hy => h y (List.mem_cons_of_mem x hy)) hm

/-- Joining newline-free strings with a newline-free separator is
newline-free. -/
theorem joinSep_no_newline (sep : String) (hsep : '\n' ∉ sep.data) :
    ∀ l : List String, (∀ x ∈ l, '\n' ∉ x.data) → '\n' ∉ (joinSep sep l).data := by
  intro l
  induction l with
  | nil => intro _; simp [joinSep]
  | cons x xs ih =>
    intro h
    cases xs with
    | nil => simpa [joinSep] using h x (List.mem_cons_self x [])
    | cons y ys =>
      intro hmem
      rw [joinSep, String.data_append, String.data_append] at hmem
      rcases List.mem_append.mp hmem with hm | hm
      · rcases List.mem_append.mp hm with hm2 | hm2
        · exact h x (List.mem_cons_self x (y :: ys)) hm2
        · exact hsep hm2
      · exact ih (fun z hz => h z (List.mem_cons_of_mem x hz)) hm

/-- A JSON string literal contains no newline. -/
theorem jsonQuote_no_newline (s : String) : '\n' ∉ (jsonQuote s).data := by
  intro hmem
  rw [jsonQuote, String.data_append, String.data_append] at hmem
  rcases List.mem_append.mp hmem with hm | hm
  · rcases List.mem_append.mp hm with hm2 | hm2
    · revert hm2; decide
    · refine concatAll_no_newline _ ?_ hm2
      intro x hx
      obtain ⟨c, _, hc⟩ := List.mem_map.mp hx
      exact hc ▸ jsonEscapeChar_no_newline c
  · revert hm; decide

/-- Rendering any JSON value contains no newline. -/
theorem Jatom_render_no_newline (v : Jatom) : '\n' ∉ (Jatom.render v).data := by
  cases v with
  | str s => exact jsonQuote_no_newline s
  | null => simp [Jatom.render]
  | arrStr xs =>
    intro hmem
    rw [Jatom.render, String.data_append, String.data_append] at hmem
    rcases List.mem_append.mp hmem with hm | hm
    · rcases List.mem_append.mp hm with hm2 | hm2
      · revert hm2; decide
      · refine joinSep_no_newline "," (by decide) _ ?_ hm2
        intro x hx
        obtain ⟨s, _, hs⟩ := List.mem_map.mp hx
        exact hs ▸ jsonQuote_no_newline s
    · revert hm; decide

/-- A rendered JSON object is a single line: it contains no newline. -/
theorem renderObj_no_newline (fields : List (String × Jatom)) :
    '\n' ∉ (renderObj fields).data := by
  intro hmem
  rw [renderObj, String.data_append, String.data_append] at hmem
  rcases List.mem_append.mp hmem with hm | hm
  · rcases List.mem_append.mp hm with hm2 | hm2
    · revert hm2; decide
    · refine joinSep_no_newline "," (by decide) _ ?_ hm2
      intro x hx
      obtain ⟨kv, _, hkv⟩ := List.mem_map.mp hx
      subst hkv
      intro hmem2
      rw [String.data_append, String.data_append] at hmem2
      rcases List.mem_append.mp hmem2 with hm3 | hm3
      · rcases List.mem_append.mp hm3 with hm4 | hm4
        · exact jsonQuote_no_newline kv.1 hm4
        · revert hm4; decide
      · exact Jatom_render_no_newline kv.2 hm3
  · revert hm; decide

/-- A marshalled log entry is a single line. -/
theorem marshalLogEntry_no_newline (e : logEntry) :
    '\n' ∉ (marshalLogEntry e).data :=
  renderObj_no_newline _

/-! ## C8: JSON-mode output shape -/

/-- C8: for every non-nil, non-ignorable error logged in JSON mode (with
the always non-empty captured trace), the output is a single line —
no newline character occurs in it — of JSON consisting of exactly the
five fields `level`, `message`, `time`, `cause`, `trace` in that order,
where `level` is the upper-case severity name (`"ERROR"`/`"FATAL"`) and
`trace` is an array of strings. -/
theorem logIf_json_five_fields (log : Logger) (trims : List String)
    (stack : List Frame) (now : String) (level : Level) (m : String)
    (data : List GoValue) (e : GoError)
    (hj : log.json = true) (hne : isErrIgnored e = false)
    (ht : getTrace trims stack 3 ≠ []) :
    ∃ out ex, logIf log trims stack now level (some e) m data = .ok ⟨some out, ex⟩
      ∧ out = renderObj
          [("level", Jatom.str (levelString level)),
           ("message", Jatom.str (sprintf m data)),
           ("time", Jatom.str now),
           ("cause", Jatom.str (stringsTitle e.errString)),
           ("trace", Jatom.arrStr (getTrace trims stack 3))]
      ∧ levelString Level.Error = "ERROR"
      ∧ levelString Level.Fatal = "FATAL"
      ∧ '\n' ∉ out.data := by
  refine ⟨_, _, logIf_json_eq log trims stack now level m data e hne hj, ?_, rfl, rfl,
    marshalLogEntry_no_newline _⟩
  unfold marshalLogEntry
  cases htr : getTrace trims stack 3 with
  | nil => exact absurd htr ht
  | cons t0 rest => rfl

/-- C8 witness: concrete JSON-mode emission. -/
theorem logIf_json_five_fields_witness :
    ∃ out ex, logIf ⟨true, true⟩ sampleTrims sampleStack "t" Level.Error
        (some sampleErr) "x=%d" [GoValue.int 5] = .ok ⟨some out, ex⟩
      ∧ out = renderObj
          [("level", Jatom.str (levelString Level.Error)),
           ("message", Jatom.str (sprintf "x=%d" [GoValue.int 5])),
           ("time", Jatom.str "t"),
           ("cause", Jatom.str (stringsTitle sampleErr.errString)),
           ("trace", Jatom.arrStr (getTrace sampleTrims sampleStack 3))]
      ∧ levelString Level.Error = "ERROR"
      ∧ levelString Level.Fatal = "FATAL"
      ∧ '\n' ∉ out.data :=
  logIf_json_five_fields ⟨true, true⟩ sampleTrims sampleStack "t" Level.Error
    "x=%d" [GoValue.int 5] sampleErr rfl (by decide) (by decide)

/-! ## C9: text-mode layout -/

/-- Numbering the trace tail preserves its length. -/
theorem numberFrom_length (n : Nat) (xs : List String) :
    (numberFrom n xs).length = xs.length := by
  induction xs generalizing n with
  | nil => rfl
  | cons x xs ih => simp [numberFrom, ih]

/-- Entry `i` of the numbered tail carries the counter value `n + i`,
right-aligned to width 8, then `": "`, then the original entry. -/
theorem numberFrom_get (xs : List String) :
    ∀ (n i : Nat) (h : i < xs.length) (h2 : i < (numberFrom n xs).length),
      (numberFrom n xs).get ⟨i, h2⟩ = goPadInt 8 (n + i) ++ ": " ++ xs.get ⟨i, h⟩ := by
  induction xs with
  | nil => intro n i h _; exact absurd h (by simp)
  | cons x xs ih =>
    intro n i h h2
    cases i with
    | zero => simp [numberFrom]
    | succ j =>
      have hj : j < xs.length := by simpa using Nat.lt_of_succ_lt_succ h
      have hj2 : j < (numberFrom (n + 1) xs).length := by
        rw [numberFrom_length]; exact hj
      have heq : n + 1 + j = n + (j + 1) := by omega
      simp only [numberFrom, List.get_cons_succ]
      rw [ih (n + 1) j hj hj2, heq]

/-- C9: for every non-nil, non-ignorable error in text mode with trace
`t0 :: rest`, the rendered block starts with a blank line then the
`Trace:` block; the first trace line carries prefix `"1: "`; line `n`
for `n ≥ 2` (entry `i` of the tail, `n = i + 2`) carries the index
right-aligned to the fixed width 8 followed by `": "`; and the block
ends with the styled header line `[<time>] [<LEVEL>] <message>
(<cause>)`. -/
theorem logIf_text_block_layout (log : Logger) (trims : List String)
    (stack : List Frame) (now : String) (level : Level) (m : String)
    (data : List GoValue) (e : GoError) (t0 : String) (rest : List String)
    (hj : log.json = false) (hne : isErrIgnored e = false)
    (htr : getTrace trims stack 3 = t0 :: rest) :
    ∃ ex, logIf log trims stack now level (some e) m data
        = .ok ⟨some ("\nTrace: "
            ++ joinSep "\n" (("1: " ++ t0) :: numberFrom 2 rest) ++ "\n"
            ++ colorRed (colorBold ("[" ++ now ++ "] [" ++ levelString level
                ++ "] " ++ sprintf m data ++ " (" ++ stringsTitle e.errString
                ++ ")"))), ex⟩
      ∧ (("1: " ++ t0) :: numberFrom 2 rest).head? = some ("1: " ++ t0)
      ∧ (numberFrom 2 rest).length = rest.length
      ∧ (∀ (i : Nat) (h : i < rest.length) (h2 : i < (numberFrom 2 rest).length),
          (numberFrom 2 rest).get ⟨i, h2⟩
            = goPadInt 8 (i + 2) ++ ": " ++ rest.get ⟨i, h⟩) := by
  refine ⟨_, logIf_text_eq log trims stack now level m data e t0 rest hne hj htr,
    rfl, numberFrom_length 2 rest, ?_⟩
  intro i h h2
  rw [numberFrom_get rest 2 i h h2, Nat.add_comm 2 i]

/-- C9 witness: concrete text-mode emission at a stack whose trace has
two frames. -/
theorem logIf_text_block_layout_witness :
    ∃ ex, logIf ⟨false, false⟩ sampleTrims sampleStack "t" Level.Error
        (some sampleErr) "m" []
        = .ok ⟨some ("\nTrace: "
            ++ joinSep "\n" (("1: " ++ "cmd/server-main.go:410:cmd.serverMain()")
                :: numberFrom 2 ["cmd/main.go:67:cmd.Main()"]) ++ "\n"
            ++ colorRed (colorBold ("[" ++ "t" ++ "] [" ++ levelString Level.Error
                ++ "] " ++ sprintf "m" [] ++ " (" ++ stringsTitle sampleErr.errString
                ++ ")"))), ex⟩
      ∧ (("1: " ++ "cmd/server-main.go:410:cmd.serverMain()")
          :: numberFrom 2 ["cmd/main.go:67:cmd.Main()"]).head?
          = some ("1: " ++ "cmd/server-main.go:410:cmd.serverMain()")
      ∧ (numberFrom 2 ["cmd/main.go:67:cmd.Main()"]).length
          = (["cmd/main.go:67:cmd.Main()"] : List String).length
      ∧ (∀ (i : Nat) (h : i < (["cmd/main.go:67:cmd.Main()"] : List String).length)
          (h2 : i < (numberFrom 2 ["cmd/main.go:67:cmd.Main()"]).length),
          (numberFrom 2 ["cmd/main.go:67:cmd.Main()"]).get ⟨i, h2⟩
            = goPadInt 8 (i + 2) ++ ": "
              ++ (["cmd/main.go:67:cmd.Main()"] : List String).get ⟨i, h⟩) :=
  logIf_text_block_layout ⟨false, false⟩ sampleTrims sampleStack "t" Level.Error
    "m" [] sampleErr "cmd/server-main.go:410:cmd.serverMain()"
    ["cmd/main.go:67:cmd.Main()"] rfl (by decide) (by decide)

end MinioLogger
